import Mathlib

/-!
Verification of the two AWS Lambda handlers of `aws-rag-pipeline`
(`src/lambda/ingestion/main.py` and `src/lambda/query/main.py`), together
with the part of the LangChain `RecursiveCharacterTextSplitter` that the
ingestion path instantiates (chunk_size 1000, chunk_overlap 100,
separators `["\n\n", "\n", " ", ""]`, `keep_separator = True`,
`strip_whitespace = True`, `length_function = len`).

Modelling conventions:
- Python `str` is `List Char` (`Str`); `len` is `List.length`.
- JSON-like Python values are `PyVal`; `json.dumps` of a response body is
  modelled as carrying the structured value itself (every `PyVal` is
  serialisable), `json.loads` is an oracle since its input is arbitrary text.
- Python exceptions are `PyErr`, raising code returns `Except PyErr`.
- Every external service call (S3 `get_object`, the vector store's
  `similarity_search_with_score` / `add_texts` / index admin calls, the
  Bedrock `RetrievalQA` chain) is an oracle field of an environment record;
  each call is also recorded as an `Op` so that frame properties of the
  externally owned index can be stated.
- Similarity scores are floats in the source; no arithmetic is ever done on
  them, so they are carried as opaque `Int` codes (`float(score)` is the
  identity on the carried code).
-/

abbrev Str := List Char

/-- JSON-like Python values (events, request/response bodies, metadata). -/
inductive PyVal where
  | pyStr (s : Str)
  | pyInt (n : Int)
  | pyFloat (code : Int)
  | pyBool (b : Bool)
  | pyNone
  | pyList (elems : List PyVal)
  | pyDict (entries : List (Str × PyVal))
  deriving Repr

/-- Python exceptions, carrying `str(e)`. -/
inductive PyErr where
  | valueError (m : Str)
  | typeError (m : Str)
  | attributeError (m : Str)
  | keyError (k : Str)
  | jsonDecodeError (m : Str)
  | clientError (m : Str)
  | other (m : Str)
  deriving Repr

/-- `str(e)` for a Python exception (`str(KeyError(k))` is `repr(k)`). -/
def PyErr.msg : PyErr → Str
  | .valueError m => m
  | .typeError m => m
  | .attributeError m => m
  | .keyError k => '\'' :: (k ++ ['\''])
  | .jsonDecodeError m => m
  | .clientError m => m
  | .other m => m

/-- First-match lookup in a Python dict (keys are unique in a real dict). -/
def dictLookup (entries : List (Str × PyVal)) (key : Str) : Option PyVal :=
  match entries with
  | [] => none
  | (k, v) :: rest => if k = key then some v else dictLookup rest key

/-- `d[key] = v` (and `dict.update` one key at a time): replace the first
binding in place when the key exists — keys are unique in a real dict, so
"first" is "the" — and append at the end otherwise, preserving Python's
insertion order. -/
def dictSet (entries : List (Str × PyVal)) (key : Str) (v : PyVal) :
    List (Str × PyVal) :=
  match entries with
  | [] => [(key, v)]
  | (k, w) :: rest =>
    if k = key then (key, v) :: rest else (k, w) :: dictSet rest key v

/-- Python truthiness (`if x:`). -/
def pyTruthy : PyVal → Bool
  | .pyStr s => !s.isEmpty
  | .pyInt n => n != 0
  | .pyFloat c => c != 0
  | .pyBool b => b
  | .pyNone => false
  | .pyList l => !l.isEmpty
  | .pyDict d => !d.isEmpty

/-- `v.get(key, dflt)`: `AttributeError` unless `v` is a dict. -/
def pyGetD (v : PyVal) (key : Str) (dflt : PyVal) : Except PyErr PyVal :=
  match v with
  | .pyDict d => .ok ((dictLookup d key).getD dflt)
  | _ => .error (.attributeError ("object has no attribute get".toList))

/-- `v.get(key)` (default `None`). -/
def pyGet (v : PyVal) (key : Str) : Except PyErr PyVal :=
  pyGetD v key .pyNone

/-- `v[key]`: `KeyError` when absent, `TypeError` when `v` is not a dict. -/
def pySubscript (v : PyVal) (key : Str) : Except PyErr PyVal :=
  match v with
  | .pyDict d =>
    match dictLookup d key with
    | some x => .ok x
    | none => .error (.keyError key)
  | _ => .error (.typeError ("object is not subscriptable".toList))

/-!
LangChain `RecursiveCharacterTextSplitter` as instantiated by
`chunk_documents` (`src/lambda/ingestion/main.py`, lines 203-222):
`chunk_size=1000`, `chunk_overlap=100`, `length_function=len`,
`separators=["\n\n", "\n", " ", ""]`, and the class defaults
`keep_separator=True`, `is_separator_regex=False`, `strip_whitespace=True`,
`add_start_index=False`.  All separators are escaped with `re.escape`, so
every regex operation below is a plain-substring operation.
-/

/-- `re.search(re.escape(needle), hay) is not None`: substring test. -/
def isSubstr (needle : Str) : Str → Bool
  | [] => needle.isEmpty
  | c :: rest => needle.isPrefixOf (c :: rest) || isSubstr needle rest

/-- `re.split` on an escaped (literal) separator: the pieces of `text`
between leftmost non-overlapping occurrences of `sep`, empty pieces
included.  `fuel` bounds the scan; callers pass `text.length`, which is
always enough.  (`sep` is nonempty at every call site; the emptiness test
only guards the `List.drop`.) -/
def splitOnAux (sep : Str) : Nat → Str → Str → List Str
  | _, [], acc => [acc.reverse]
  | 0, text, acc => [acc.reverse ++ text]
  | fuel + 1, c :: rest, acc =>
    if !sep.isEmpty && sep.isPrefixOf (c :: rest) then
      acc.reverse :: splitOnAux sep fuel ((c :: rest).drop sep.length) []
    else
      splitOnAux sep fuel rest (c :: acc)

/-- `_split_text_with_regex(text, re.escape(sep), keep_separator=True)`:
for `sep = ""` the list of characters of `text`; otherwise the pieces of
`text` with each separator occurrence reattached as a prefix of the piece
that follows it; empty strings are filtered out. -/
def splitTextWithSep (sep : Str) (text : Str) : List Str :=
  if sep.isEmpty then
    (text.map (fun c => [c])).filter (fun s => !s.isEmpty)
  else
    match splitOnAux sep text.length text [] with
    | [] => []
    | p :: ps =>
      (p :: ps.map (fun q => sep ++ q)).filter (fun s => !s.isEmpty)

/-- The separator-selection scan of `_split_text`: the first separator that
is `""` or occurs in `text` is chosen together with the remaining
separators; when none matches, the scan falls through to
(`separators[-1]`, no remaining separators). -/
def chooseSepGo (text : Str) (lastSep : Str) : List Str → Str × List Str
  | [] => (lastSep, [])
  | s :: rest =>
    if s.isEmpty then ([], [])
    else if isSubstr s text then (s, rest)
    else chooseSepGo text lastSep rest

/-- Separator selection of `_split_text` (binding `separator` and
`new_separators`); `separators[-1]` raises `IndexError` on an empty list
in Python, which never happens here — the model defaults to `""`. -/
def chooseSep (text : Str) (seps : List Str) : Str × List Str :=
  chooseSepGo text (seps.getLastD []) seps

/-- `separator.join(docs)`. -/
def pyJoin (sep : Str) : List Str → Str
  | [] => []
  | [d] => d
  | d :: rest => d ++ sep ++ pyJoin sep rest

/-- `str.strip()` (whitespace at both ends removed). -/
def pyStrip (s : Str) : Str :=
  ((s.dropWhile Char.isWhitespace).reverse.dropWhile Char.isWhitespace).reverse

/-- `_join_docs(docs, separator)` with `strip_whitespace = True`:
`None` when the stripped join is empty. -/
def joinDocs (sep : Str) (docs : List Str) : Option Str :=
  let text := pyStrip (pyJoin sep docs)
  if text.isEmpty then none else some text

/-- The inner `while` of `_merge_splits`: pop leading members of
`current_doc` while the running total exceeds `chunk_overlap`, or adding
the next split would exceed `chunk_size` with a nonempty total.  The
total is a Python `int`, so it is carried as `Int`.  Python would raise
`IndexError` were the condition true on an empty `current_doc`; that
state is unreachable (the total is then `0`) and the model just stops. -/
def popWhile (cs co lenD sepLen : Nat) : List Str → Int → List Str × Int
  | [], total => ([], total)
  | c :: rest, total =>
    if (co : Int) < total ∨
        ((cs : Int) < total + lenD +
            (if 0 < (c :: rest).length then (sepLen : Int) else 0) ∧
          0 < total) then
      popWhile cs co lenD sepLen rest
        (total - (c.length + (if 0 < rest.length then (sepLen : Int) else 0)))
    else
      (c :: rest, total)

/-- The loop body of `_merge_splits(splits, separator)`: state is the
emitted `docs`, the pending `current_doc` and its running `total`. -/
def mergeGo (cs co : Nat) (sep : Str) :
    List Str → List Str → List Str → Int → List Str
  | [], docs, current, _total =>
    match joinDocs sep current with
    | some doc => docs ++ [doc]
    | none => docs
  | d :: rest, docs, current, total =>
    let lenD := d.length
    let sepLen := sep.length
    if (cs : Int) < total + lenD +
        (if 0 < current.length then (sepLen : Int) else 0) then
      let docs1 :=
        if 0 < current.length then
          match joinDocs sep current with
          | some doc => docs ++ [doc]
          | none => docs
        else docs
      let pc :=
        if 0 < current.length then popWhile cs co lenD sepLen current total
        else (current, total)
      mergeGo cs co sep rest docs1 (pc.1 ++ [d])
        (pc.2 + lenD + (if 1 < (pc.1 ++ [d]).length then (sepLen : Int) else 0))
    else
      mergeGo cs co sep rest docs (current ++ [d])
        (total + lenD + (if 1 < (current ++ [d]).length then (sepLen : Int) else 0))

/-- `_merge_splits(splits, separator)`. -/
def mergeSplits (cs co : Nat) (sep : Str) (splits : List Str) : List Str :=
  mergeGo cs co sep splits [] [] 0

/-- The `for s in splits` loop of `_split_text`, accumulating
`_good_splits` and `final_chunks`; `_merge_splits` is always called with
separator `""` because `keep_separator` is true.  `noNewSeps` is
`not new_separators`, `recurse` is the recursive `_split_text` call. -/
def processSplits (cs co : Nat) (noNewSeps : Bool) (recurse : Str → List Str) :
    List Str → List Str → List Str → List Str
  | [], good, final =>
    final ++ (if good.isEmpty then [] else mergeSplits cs co [] good)
  | s :: rest, good, final =>
    if s.length < cs then
      processSplits cs co noNewSeps recurse rest (good ++ [s]) final
    else
      let final1 := final ++ (if good.isEmpty then [] else mergeSplits cs co [] good)
      let final2 := if noNewSeps then final1 ++ [s] else final1 ++ recurse s
      processSplits cs co noNewSeps recurse rest [] final2

/-- `_split_text(text, separators)`.  The structural fuel is the length of
the separator list; every recursive call strictly shortens that list, so
`seps.length` fuel (supplied by `splitText`) never runs out on a nonempty
list.  (With fuel 0 the model returns `[]`; in Python an empty separator
list would raise `IndexError` on `separators[-1]`.) -/
def splitTextFuel (cs co : Nat) : Nat → List Str → Str → List Str
  | 0, _, _ => []
  | fuel + 1, seps, text =>
    let p := chooseSep text seps
    let splits := splitTextWithSep p.1 text
    processSplits cs co p.2.isEmpty
      (fun s => splitTextFuel cs co fuel p.2 s) splits [] []

/-- `split_text(text)` of a `RecursiveCharacterTextSplitter` configured
with `chunk_size = cs`, `chunk_overlap = co` and separator list `seps`. -/
def splitText (cs co : Nat) (seps : List Str) (text : Str) : List Str :=
  splitTextFuel cs co seps.length seps text

/-- The separator list of `chunk_documents`. -/
def theSeparators : List Str :=
  ["\n\n".toList, "\n".toList, " ".toList, "".toList]

/-!
Documents and the ingestion handler (`src/lambda/ingestion/main.py`).
-/

/-- `langchain.docstore.document.Document`. -/
structure Document where
  page_content : Str
  metadata : List (Str × PyVal)
  deriving Repr

/-- `TextSplitter.split_documents` ∘ `create_documents` with
`add_start_index = False`: each chunk of each document's text becomes a
document carrying a (deep) copy of the source document's metadata. -/
def split_documents (cs co : Nat) (seps : List Str) (docs : List Document) :
    List Document :=
  docs.flatMap fun doc =>
    (splitText cs co seps doc.page_content).map fun chunk =>
      { page_content := chunk, metadata := doc.metadata }

/-- `chunk_documents` (ingestion, lines 203-222): split with chunk size
1000 and overlap 100, then stamp each chunk with its position and length. -/
def chunk_documents (documents : List Document) : List Document :=
  let chunks := split_documents 1000 100 theSeparators documents
  chunks.enum.map fun p =>
    { p.2 with
      metadata :=
        dictSet (dictSet p.2.metadata ("chunk_id".toList) (.pyInt p.1))
          ("chunk_size".toList) (.pyInt p.2.page_content.length) }

/-- The two vector-store backends. -/
inductive StoreKind where
  | opensearch
  | pinecone
  deriving Repr, DecidableEq

/-- The `ValueError` message of the missing-Pinecone-key check. -/
def pineconeKeyMsg : Str :=
  "PINECONE_API_KEY environment variable is required for Pinecone".toList

/-- The `ValueError` message of the unsupported-backend branch. -/
def unsupportedMsg (vst : Str) : Str :=
  "Unsupported vector store type: ".toList ++ vst

/-- `create_vector_store` — the backend-selection logic, written
identically in both `src/lambda/ingestion/main.py` (lines 51-96) and
`src/lambda/query/main.py` (lines 35-79): a name-based `if/elif/else` on
`VECTOR_STORE_TYPE`, with `if not PINECONE_API_KEY: raise ValueError`
guarding the Pinecone branch (`os.environ.get` yields `None` when the
variable is unset, and `not` also rejects an empty string).  Client and
embedding construction performs no index traffic and is modelled as
returning the selected backend. -/
def create_vector_store (vst : Str) (pineconeApiKey : Option Str) :
    Except PyErr StoreKind :=
  if vst = "opensearch".toList then .ok .opensearch
  else if vst = "pinecone".toList then
    match pineconeApiKey with
    | none => .error (.valueError pineconeKeyMsg)
    | some k =>
      if k.isEmpty then .error (.valueError pineconeKeyMsg)
      else .ok .pinecone
  else .error (.valueError (unsupportedMsg vst))

/-- Vector-index operations issued by the handlers. -/
inductive Op where
  | createIndex
  | s3Get (bucket key : Str)
  | addTexts (texts : List Str) (metadatas : List (List (Str × PyVal)))
  | search (query : PyVal) (k : Nat)
  | qaInvoke (query : PyVal)

/-- The externally owned vector index: whether the index was created, and
its records — one `(text, metadata)` pair per stored embedding (the
embedding vector itself lives in the external service). -/
structure IndexState where
  created : Bool
  records : List (Str × List (Str × PyVal))

/-- Effect of one operation on the external index: `createIndex` only
creates the (empty) index, `addTexts` appends one record per text, and
reads leave the state unchanged. -/
def applyOp : Op → IndexState → IndexState
  | .createIndex, st => { st with created := true }
  | .addTexts ts ms, st => { st with records := st.records ++ ts.zip ms }
  | .s3Get _ _, st => st
  | .search _ _, st => st
  | .qaInvoke _, st => st

/-- Effect of a trace of operations. -/
def applyOps (ops : List Op) (st : IndexState) : IndexState :=
  ops.foldl (fun s o => applyOp o s) st

/-- An S3 object as seen after `response['Body'].read().decode('utf-8')`:
decoding failures are folded into the oracle's error. -/
structure S3Obj where
  body : Str
  contentType : Option Str

/-- Environment of the ingestion handler: configuration plus one oracle
per external call.  `unquote` is `urllib.parse.unquote_plus`, a pure
stdlib function whose internals no claim depends on. -/
structure IngEnv where
  vectorStoreType : Str
  pineconeApiKey : Option Str
  indexExists : Except PyErr Bool
  indexCreate : Except PyErr Unit
  s3get : Str → Str → Except PyErr S3Obj
  addTexts : List Str → List (List (Str × PyVal)) → Except PyErr Unit
  unquote : Str → Str

/-- `str.lower()` restricted to ASCII (enough for the messages involved). -/
def lowerStr (s : Str) : Str := s.map Char.toLower

/-- The `try/except` of `create_index_if_not_exists` shared by both
backends (ingestion, lines 103-147 and 159-177): check existence, create
when absent, and suppress any error whose text contains
`"already exists"` (case-insensitively). -/
def createIndexInner (env : IngEnv) : Except PyErr Unit × List Op :=
  match env.indexExists with
  | .error e =>
    if isSubstr ("already exists".toList) (lowerStr e.msg) then (.ok (), [])
    else (.error e, [])
  | .ok true => (.ok (), [])
  | .ok false =>
    match env.indexCreate with
    | .ok () => (.ok (), [Op.createIndex])
    | .error e =>
      if isSubstr ("already exists".toList) (lowerStr e.msg) then
        (.ok (), [Op.createIndex])
      else (.error e, [Op.createIndex])

/-- `create_index_if_not_exists` (ingestion, lines 98-177).  Note that an
unrecognised `VECTOR_STORE_TYPE` falls through silently here (there is no
`else` branch in the source); only `create_vector_store` rejects it. -/
def create_index_if_not_exists (env : IngEnv) : Except PyErr Unit × List Op :=
  if env.vectorStoreType = "opensearch".toList then
    createIndexInner env
  else if env.vectorStoreType = "pinecone".toList then
    match env.pineconeApiKey with
    | none => (.error (.valueError pineconeKeyMsg), [])
    | some k =>
      if k.isEmpty then (.error (.valueError pineconeKeyMsg), [])
      else createIndexInner env
  else (.ok (), [])

/-- The single `Document` that `load_document_from_s3` wraps an S3 object
in (ingestion, lines 186-195): the full decoded content plus metadata
recording the `s3://bucket/key` origin. -/
def loadedDocument (b key : Str) (obj : S3Obj) : Document :=
  { page_content := obj.body,
    metadata :=
      [("source".toList, .pyStr ("s3://".toList ++ b ++ "/".toList ++ key)),
       ("bucket".toList, .pyStr b),
       ("key".toList, .pyStr key),
       ("content_type".toList,
         .pyStr (obj.contentType.getD ("text/plain".toList)))] }

/-- `load_document_from_s3` (ingestion, lines 179-201): fetch and decode
the object, wrap it in a single `Document`.  boto3 rejects a non-string
`Bucket` with a `ParamValidationError` before any call is made; errors
are logged and re-raised. -/
def load_document_from_s3 (env : IngEnv) (bucket : PyVal) (key : Str) :
    Except PyErr (List Document) × List Op :=
  match bucket with
  | .pyStr b =>
    match env.s3get b key with
    | .error e => (.error e, [Op.s3Get b key])
    | .ok obj => (.ok [loadedDocument b key obj], [Op.s3Get b key])
  | _ =>
    (.error (.clientError ("Parameter validation failed".toList)), [])

/-- `store_chunks_in_vector_store` (ingestion, lines 224-235): build the
store, then hand over texts and metadata in one `add_texts` call.  The
operation is recorded even when the external call fails, since the
service may have been reached. -/
def store_chunks_in_vector_store (env : IngEnv) (chunks : List Document) :
    Except PyErr Unit × List Op :=
  match create_vector_store env.vectorStoreType env.pineconeApiKey with
  | .error e => (.error e, [])
  | .ok _ =>
    let texts := chunks.map (fun c => c.page_content)
    let metadatas := chunks.map (fun c => c.metadata)
    match env.addTexts texts metadatas with
    | .ok () => (.ok (), [Op.addTexts texts metadatas])
    | .error e => (.error e, [Op.addTexts texts metadatas])

/-- Python `==` between a value and a `str` literal: true exactly for an
equal string (no other built-in JSON value compares equal to a `str`). -/
def pyEqStr (v : PyVal) (s : Str) : Bool :=
  match v with
  | .pyStr t => t = s
  | _ => false

/-- The body of `for record in event.get('Records', [])` (ingestion,
lines 246-263): records whose `eventSource` is not `'aws:s3'` are skipped;
for S3 records the bucket and (URL-decoded) key are read out of the
nested event structure, and the document is loaded, chunked and stored.
`unquote_plus` fails on a non-string key before the bucket is ever used. -/
def processRecord (env : IngEnv) (record : PyVal) :
    Except PyErr Unit × List Op :=
  match pyGet record ("eventSource".toList) with
  | .error e => (.error e, [])
  | .ok es =>
    if pyEqStr es ("aws:s3".toList) then
      match (do
          let s3v ← pySubscript record ("s3".toList)
          let bv ← pySubscript s3v ("bucket".toList)
          let bucket ← pySubscript bv ("name".toList)
          let ov ← pySubscript s3v ("object".toList)
          let keyv ← pySubscript ov ("key".toList)
          pure (bucket, keyv) : Except PyErr (PyVal × PyVal)) with
      | .error e => (.error e, [])
      | .ok (bucket, keyv) =>
        match keyv with
        | .pyStr rawKey =>
          let key := env.unquote rawKey
          match load_document_from_s3 env bucket key with
          | (.error e, ops) => (.error e, ops)
          | (.ok documents, ops) =>
            let chunks := chunk_documents documents
            let (res, ops2) := store_chunks_in_vector_store env chunks
            (res, ops ++ ops2)
        | _ =>
          (.error (.typeError ("unquote_plus expects a str".toList)), [])
    else (.ok (), [])

/-- The full `for` loop over the records, stopping at the first raised
exception. -/
def processRecords (env : IngEnv) : List PyVal → Except PyErr Unit × List Op
  | [] => (.ok (), [])
  | r :: rest =>
    match processRecord env r with
    | (.ok (), ops) =>
      let pr := processRecords env rest
      (pr.1, ops ++ pr.2)
    | (.error e, ops) => (.error e, ops)

namespace Ingestion

/-- The `try` block of the ingestion `lambda_handler` (lines 241-271):
create the index if needed, process each record, and report the list of
records whose length the success response counts.  `event.get` raises on
a non-dict event; a `Records` value that is not a list fails during
iteration (strings and dicts would iterate but every element then fails
the `.get` lookup, ending in the same handler-boundary exception). -/
def handlerTry (env : IngEnv) (event : PyVal) :
    Except PyErr (List PyVal) × List Op :=
  match create_index_if_not_exists env with
  | (.error e, ops) => (.error e, ops)
  | (.ok (), ops0) =>
    match pyGetD event ("Records".toList) (.pyList []) with
    | .error e => (.error e, ops0)
    | .ok recsV =>
      match recsV with
      | .pyList recs =>
        match processRecords env recs with
        | (.ok (), ops1) => (.ok recs, ops0 ++ ops1)
        | (.error e, ops1) => (.error e, ops0 ++ ops1)
      | _ => (.error (.typeError ("object is not iterable".toList)), ops0)

/-- The success response (lines 265-271). -/
def resp200 (n : Nat) : PyVal :=
  .pyDict
    [("statusCode".toList, .pyInt 200),
     ("body".toList,
       .pyDict
         [("message".toList, .pyStr ("Documents processed successfully".toList)),
          ("processed_records".toList, .pyInt n)])]

/-- The catch-all error response (lines 273-281). -/
def resp500 (e : PyErr) : PyVal :=
  .pyDict
    [("statusCode".toList, .pyInt 500),
     ("body".toList,
       .pyDict
         [("error".toList, .pyStr e.msg),
          ("message".toList, .pyStr ("Failed to process documents".toList))])]

/-- `lambda_handler` (ingestion, lines 237-281): the `try` block wrapped
in the catch-all.  The second component is the trace of external
operations performed. -/
def lambda_handler (env : IngEnv) (event : PyVal) : PyVal × List Op :=
  match handlerTry env event with
  | (.ok recs, ops) => (resp200 recs.length, ops)
  | (.error e, ops) => (resp500 e, ops)

end Ingestion

/-!
The query handler (`src/lambda/query/main.py`).
-/

/-- Result of the `RetrievalQA` chain: the synthesized answer under
`"result"` and the retrieved chunks under `"source_documents"`
(`return_source_documents=True`). -/
structure QAResult where
  result : Str
  source_documents : List Document

/-- Environment of the query handler: configuration plus one oracle per
external call.  `jsonLoads` is `json.loads` on the request body string;
`search` is `similarity_search_with_score`; `qa` is the invocation of the
`RetrievalQA` chain (retriever `k = 5`, Claude 3 Haiku). -/
structure QEnv where
  vectorStoreType : Str
  pineconeApiKey : Option Str
  jsonLoads : Str → Except PyErr PyVal
  search : PyVal → Nat → Except PyErr (List (Document × Int))
  qa : PyVal → Except PyErr QAResult

/-- `search_similar_documents(query, k=5)` (query, lines 149-166): build
the vector store, run the similarity search, and shape each scored hit as
`{"content": ..., "score": float(score), "metadata": ...}`. -/
def search_similar_documents (env : QEnv) (query : PyVal) (k : Nat) :
    Except PyErr (List PyVal) × List Op :=
  match create_vector_store env.vectorStoreType env.pineconeApiKey with
  | .error e => (.error e, [])
  | .ok _ =>
    match env.search query k with
    | .error e => (.error e, [Op.search query k])
    | .ok hits =>
      (.ok (hits.map fun h =>
          .pyDict
            [("content".toList, .pyStr h.1.page_content),
             ("score".toList, .pyFloat h.2),
             ("metadata".toList, .pyDict h.1.metadata)]),
        [Op.search query k])

/-- `doc.page_content[:200] + "..."` when longer than 200 characters. -/
def contentPreview (s : Str) : Str :=
  if 200 < s.length then s.take 200 ++ "...".toList else s

/-- One entry of the `sources` list of the RAG response (query, lines
219-226): `getattr(doc, '_score', 0)` is always the default `0`, a
`Document` has no `_score` attribute. -/
def sourceInfo (doc : Document) : PyVal :=
  .pyDict
    [("source".toList,
       (dictLookup doc.metadata ("source".toList)).getD
         (.pyStr ("Unknown".toList))),
     ("chunk_id".toList,
       (dictLookup doc.metadata ("chunk_id".toList)).getD (.pyInt 0)),
     ("score".toList, .pyInt 0),
     ("content_preview".toList, .pyStr (contentPreview doc.page_content))]

namespace Query

/-- The CORS headers attached to every query response. -/
def headers : PyVal :=
  .pyDict
    [("Content-Type".toList, .pyStr ("application/json".toList)),
     ("Access-Control-Allow-Origin".toList, .pyStr ("*".toList))]

/-- The 400 response for a missing or falsy `query` (lines 180-190). -/
def resp400 : PyVal :=
  .pyDict
    [("statusCode".toList, .pyInt 400),
     ("headers".toList, headers),
     ("body".toList,
       .pyDict [("error".toList, .pyStr ("Query parameter is required".toList))])]

/-- The 200 response wrapping `response_data` (lines 230-237). -/
def resp200 (responseData : PyVal) : PyVal :=
  .pyDict
    [("statusCode".toList, .pyInt 200),
     ("headers".toList, headers),
     ("body".toList, responseData)]

/-- The catch-all 500 response (lines 239-251). -/
def resp500 (e : PyErr) : PyVal :=
  .pyDict
    [("statusCode".toList, .pyInt 500),
     ("headers".toList, headers),
     ("body".toList,
       .pyDict
         [("error".toList, .pyStr e.msg),
          ("message".toList, .pyStr ("Internal server error".toList))])]

/-- Request-body extraction (lines 173-177): parse `event['body']` with
`json.loads` when it is a string, otherwise use it as-is (default `{}`
when absent — but `None` stays `None` when the key is present). -/
def parseBody (env : QEnv) (event : PyVal) : Except PyErr PyVal := do
  let raw ← pyGet event ("body".toList)
  match raw with
  | .pyStr s => env.jsonLoads s
  | _ => pyGetD event ("body".toList) (.pyDict [])

/-- The `try` block of the query `lambda_handler` (lines 172-237),
producing the full response (the early 400 return included). -/
def handlerTry (env : QEnv) (event : PyVal) : Except PyErr PyVal × List Op :=
  match parseBody env event with
  | .error e => (.error e, [])
  | .ok body =>
    match pyGet body ("query".toList) with
    | .error e => (.error e, [])
    | .ok query =>
      if !pyTruthy query then (.ok resp400, [])
      else
        match pyGetD body ("search_only".toList) (.pyBool false) with
        | .error e => (.error e, [])
        | .ok searchOnly =>
          if pyTruthy searchOnly then
            match search_similar_documents env query 5 with
            | (.error e, ops) => (.error e, ops)
            | (.ok similarDocs, ops) =>
              (.ok (resp200 (.pyDict
                  [("query".toList, query),
                   ("documents".toList, .pyList similarDocs),
                   ("type".toList, .pyStr ("similarity_search".toList))])),
                ops)
          else
            match create_vector_store env.vectorStoreType env.pineconeApiKey with
            | .error e => (.error e, [])
            | .ok _ =>
              match env.qa query with
              | .error e => (.error e, [Op.qaInvoke query])
              | .ok result =>
                (.ok (resp200 (.pyDict
                    [("query".toList, query),
                     ("response".toList, .pyStr result.result),
                     ("sources".toList,
                       .pyList (result.source_documents.map sourceInfo))])),
                  [Op.qaInvoke query])

/-- `lambda_handler` (query, lines 168-251): the `try` block wrapped in
the catch-all; the second component is the trace of external operations. -/
def lambda_handler (env : QEnv) (event : PyVal) : PyVal × List Op :=
  match handlerTry env event with
  | (.ok resp, ops) => (resp, ops)
  | (.error e, ops) => (resp500 e, ops)

end Query



/-!
Canonical event shapes and concrete fixtures used by witnesses.
-/

/-- The canonical S3 `ObjectCreated` notification record the handler
reads: `record['s3']['bucket']['name']` and `record['s3']['object']['key']`
under `eventSource = 'aws:s3'`. -/
def s3Record (bucket rawKey : Str) : PyVal :=
  .pyDict
    [("eventSource".toList, .pyStr ("aws:s3".toList)),
     ("s3".toList, .pyDict
       [("bucket".toList, .pyDict [("name".toList, .pyStr bucket)]),
        ("object".toList, .pyDict [("key".toList, .pyStr rawKey)])])]

/-- An oracle environment for exercising the query handler on concrete
events: OpenSearch backend, a search yielding one hit, a QA chain
yielding a fixed answer. -/
def testQEnv : QEnv :=
  { vectorStoreType := "opensearch".toList
    pineconeApiKey := none
    jsonLoads := fun _ => .error (.jsonDecodeError ("Expecting value".toList))
    search := fun _ _ =>
      .ok [({ page_content := "doc".toList, metadata := [] }, 7)]
    qa := fun _ => .ok { result := "ans".toList, source_documents := [] } }

/-- A query event with a non-empty query and `search_only = true`. -/
def evSearchOnly : PyVal :=
  .pyDict [("body".toList, .pyDict
    [("query".toList, .pyStr ("hi".toList)),
     ("search_only".toList, .pyBool true)])]

/-- A query event with a non-empty query and no `search_only` flag. -/
def evRag : PyVal :=
  .pyDict [("body".toList, .pyDict [("query".toList, .pyStr ("hi".toList))])]

/-- A query event whose body has no `query` key. -/
def evNoQuery : PyVal :=
  .pyDict [("body".toList, .pyDict [])]

/-- An oracle environment for exercising the ingestion handler: the index
already exists, S3 serves a fixed eleven-character document, `add_texts`
succeeds, and keys need no URL decoding. -/
def testIngEnv : IngEnv :=
  { vectorStoreType := "opensearch".toList
    pineconeApiKey := none
    indexExists := .ok true
    indexCreate := .ok ()
    s3get := fun _ _ => .ok { body := "hello world".toList, contentType := none }
    addTexts := fun _ _ => .ok ()
    unquote := id }

/-- An ingestion record from a non-S3 source. -/
def sqsRecord : PyVal :=
  .pyDict [("eventSource".toList, .pyStr ("aws:sqs".toList))]

/-- An ingestion event holding a single non-S3 record. -/
def evSqsOnly : PyVal :=
  .pyDict [("Records".toList, .pyList [sqsRecord])]

/-- A one-document corpus for the chunking witness. -/
def testDoc : Document := { page_content := "hello".toList, metadata := [] }

/-- A concrete S3 object for the ingestion witnesses. -/
def testObj : S3Obj := { body := "hello world".toList, contentType := none }

/-- The stamped metadata of the single chunk made from `testObj`. -/
def testMeta : List (Str × PyVal) :=
  [("source".toList, .pyStr ("s3://b/k.txt".toList)),
   ("bucket".toList, .pyStr ("b".toList)),
   ("key".toList, .pyStr ("k.txt".toList)),
   ("content_type".toList, .pyStr ("text/plain".toList)),
   ("chunk_id".toList, .pyInt 0),
   ("chunk_size".toList, .pyInt 11)]

/-- The single chunk that `chunk_documents` produces from `testDoc`. -/
def testChunk : Document :=
  { page_content := "hello".toList,
    metadata := [("chunk_id".toList, PyVal.pyInt 0),
                 ("chunk_size".toList, PyVal.pyInt 5)] }

/-- The `statusCode` field of a response dict. -/
def respStatusCode (resp : PyVal) : Option PyVal :=
  match resp with
  | .pyDict d => dictLookup d ("statusCode".toList)
  | _ => none

/-- The field names of a response dict's `body` object, in order. -/
def respBodyKeys (resp : PyVal) : Option (List Str) :=
  match resp with
  | .pyDict d =>
    match dictLookup d ("body".toList) with
    | some (.pyDict b) => some (b.map Prod.fst)
    | _ => none
  | _ => none

/-!
Dictionary lemmas.
-/

lemma dictLookup_dictSet_self (k : Str) (v : PyVal) :
    ∀ d : List (Str × PyVal), dictLookup (dictSet d k v) k = some v := by
  intro d
  induction d with
  | nil => simp [dictSet, dictLookup]
  | cons p rest ih =>
    obtain ⟨a, b⟩ := p
    by_cases ha : a = k
    · simp [dictSet, dictLookup, ha]
    · simp only [dictSet, if_neg ha, dictLookup]
      exact ih

lemma dictLookup_dictSet_ne (k k' : Str) (v : PyVal) (hne : k' ≠ k) :
    ∀ d : List (Str × PyVal),
    dictLookup (dictSet d k v) k' = dictLookup d k' := by
  intro d
  induction d with
  | nil =>
    simp only [dictSet, dictLookup]
    rw [if_neg (fun h => hne h.symm)]
  | cons p rest ih =>
    obtain ⟨a, b⟩ := p
    by_cases ha : a = k
    · subst ha
      simp only [dictSet, if_pos rfl, dictLookup]
      rw [if_neg (fun h => hne h.symm), if_neg (fun h => hne h.symm)]
    · simp only [dictSet, if_neg ha, dictLookup]
      by_cases hk : a = k'
      · rw [if_pos hk, if_pos hk]
      · rw [if_neg hk, if_neg hk]
        exact ih

/-!
Size bounds for the splitter: every chunk that `_split_text` emits with
the `["\n\n", "\n", " ", ""]` separator list has length at most
`chunk_size`.
-/

/-- Total length of a list of strings (the running `total` of
`_merge_splits` when the merge separator is empty). -/
def sumLen (l : List Str) : Nat := (l.map List.length).sum

lemma sumLen_nil : sumLen [] = 0 := rfl

lemma sumLen_cons (d : Str) (l : List Str) :
    sumLen (d :: l) = d.length + sumLen l := by
  simp [sumLen]

lemma sumLen_append (l₁ l₂ : List Str) :
    sumLen (l₁ ++ l₂) = sumLen l₁ + sumLen l₂ := by
  simp [sumLen]

lemma length_dropWhile_le (p : Char → Bool) (l : Str) :
    (l.dropWhile p).length ≤ l.length := by
  induction l with
  | nil => simp
  | cons c rest ih =>
    by_cases h : p c
    · simp only [List.dropWhile_cons, if_pos h]
      exact le_trans ih (by simp)
    · simp [List.dropWhile_cons, h]

lemma pyStrip_length_le (s : Str) : (pyStrip s).length ≤ s.length := by
  unfold pyStrip
  calc ((s.dropWhile Char.isWhitespace).reverse.dropWhile
          Char.isWhitespace).reverse.length
      = ((s.dropWhile Char.isWhitespace).reverse.dropWhile
          Char.isWhitespace).length := List.length_reverse _
    _ ≤ (s.dropWhile Char.isWhitespace).reverse.length :=
        length_dropWhile_le _ _
    _ = (s.dropWhile Char.isWhitespace).length := List.length_reverse _
    _ ≤ s.length := length_dropWhile_le _ _

lemma pyJoin_nil_length (l : List Str) : (pyJoin [] l).length = sumLen l := by
  induction l with
  | nil => rfl
  | cons d rest ih =>
    cases rest with
    | nil => simp [pyJoin, sumLen]
    | cons e rest' =>
      simp only [pyJoin, List.append_nil, List.length_append] at ih ⊢
      rw [ih, sumLen_cons, sumLen_cons, sumLen_cons]

lemma joinDocs_nil_length (cur : List Str) (t : Str)
    (h : joinDocs [] cur = some t) : t.length ≤ sumLen cur := by
  unfold joinDocs at h
  by_cases he : (pyStrip (pyJoin [] cur)).isEmpty
  · simp [he] at h
  · simp only [he, if_neg, Bool.false_eq_true, not_false_iff] at h
    cases h
    calc (pyStrip (pyJoin [] cur)).length
        ≤ (pyJoin [] cur).length := pyStrip_length_le _
      _ = sumLen cur := pyJoin_nil_length cur

lemma popWhile_inv (cs co lenD : Nat) :
    ∀ (cur : List Str) (total : Int), total = (sumLen cur : Int) →
      (popWhile cs co lenD 0 cur total).2 =
          (sumLen (popWhile cs co lenD 0 cur total).1 : Int) ∧
      ((popWhile cs co lenD 0 cur total).2 + lenD ≤ (cs : Int) ∨
        (popWhile cs co lenD 0 cur total).2 = 0) := by
  intro cur
  induction cur with
  | nil =>
    intro total ht
    rw [sumLen_nil] at ht
    simp only [popWhile]
    exact ⟨by simpa using ht, Or.inr (by simpa using ht)⟩
  | cons c rest ih =>
    intro total ht
    rw [sumLen_cons] at ht
    simp only [popWhile, Nat.cast_zero, ite_self, add_zero]
    by_cases hc : (co : Int) < total ∨ ((cs : Int) < total + lenD ∧ 0 < total)
    · rw [if_pos hc]
      refine ih (total - c.length) ?_
      rw [ht]
      push_cast
      ring
    · rw [if_neg hc]
      push_neg at hc
      refine ⟨ht, ?_⟩
      by_cases hb : (cs : Int) < total + lenD
      · refine Or.inr ?_
        have h0 := hc.2 hb
        have : (0 : Int) ≤ (sumLen (c :: rest) : Int) := Int.natCast_nonneg _
        rw [sumLen_cons] at this
        omega
      · exact Or.inl (le_of_not_lt hb)

lemma mergeGo_bound (cs co : Nat) :
    ∀ (splits docs cur : List Str) (total : Int),
      (∀ d ∈ splits, d.length < cs) →
      total = (sumLen cur : Int) →
      total ≤ (cs : Int) →
      (∀ t ∈ docs, t.length ≤ cs) →
      ∀ t ∈ mergeGo cs co [] splits docs cur total, t.length ≤ cs := by
  intro splits
  induction splits with
  | nil =>
    intro docs cur total _ ht hle hdocs t htmem
    simp only [mergeGo] at htmem
    cases hj : joinDocs [] cur with
    | none =>
      rw [hj] at htmem
      exact hdocs t htmem
    | some doc =>
      rw [hj] at htmem
      rcases List.mem_append.mp htmem with h | h
      · exact hdocs t h
      · have hteq : t = doc := by simpa using h
        subst hteq
        have h1 := joinDocs_nil_length cur t hj
        have h2 : (sumLen cur : Int) ≤ (cs : Int) := ht ▸ hle
        omega
  | cons d rest ih =>
    intro docs cur total hsplits ht hle hdocs t htmem
    have hd : d.length < cs := hsplits d (by simp)
    have hrest : ∀ x ∈ rest, x.length < cs := fun x hx => hsplits x (by simp [hx])
    simp only [mergeGo, List.length_nil, Nat.cast_zero, ite_self, add_zero]
      at htmem
    by_cases hcond : (cs : Int) < total + d.length
    · rw [if_pos hcond] at htmem
      by_cases hcur : 0 < cur.length
      · rw [if_pos hcur, if_pos hcur] at htmem
        obtain ⟨hpc1, hpc2⟩ := popWhile_inv cs co d.length cur total ht
        cases hj : joinDocs [] cur with
        | none =>
          rw [hj] at htmem
          refine ih _ _ _ hrest ?_ ?_ hdocs t htmem
          · rw [sumLen_append, sumLen_cons, sumLen_nil, hpc1]
            push_cast
            omega
          · rcases hpc2 with h | h
            · exact h
            · rw [h]; omega
        | some doc =>
          rw [hj] at htmem
          refine ih _ _ _ hrest ?_ ?_ ?_ t htmem
          · rw [sumLen_append, sumLen_cons, sumLen_nil, hpc1]
            push_cast
            omega
          · rcases hpc2 with h | h
            · exact h
            · rw [h]; omega
          · intro x hx
            rcases List.mem_append.mp hx with h | h
            · exact hdocs x h
            · have hxeq : x = doc := by simpa using h
              subst hxeq
              have h1 := joinDocs_nil_length cur x hj
              have h2 : (sumLen cur : Int) ≤ (cs : Int) := ht ▸ hle
              omega
      · rw [if_neg hcur, if_neg hcur] at htmem
        have hnil : cur = [] := List.length_eq_zero.mp (by omega)
        subst hnil
        rw [sumLen_nil] at ht
        refine ih _ _ _ hrest ?_ ?_ hdocs t htmem
        · rw [List.nil_append, sumLen_cons, sumLen_nil]
          rw [ht]
          push_cast
          omega
        · rw [ht]
          omega
    · rw [if_neg hcond] at htmem
      refine ih _ _ _ hrest ?_ ?_ hdocs t htmem
      · rw [sumLen_append, sumLen_cons, sumLen_nil, ht]
        push_cast
        omega
      · omega

lemma mergeSplits_bound (cs co : Nat) (splits : List Str)
    (h : ∀ d ∈ splits, d.length < cs) :
    ∀ t ∈ mergeSplits cs co [] splits, t.length ≤ cs := by
  intro t htmem
  exact mergeGo_bound cs co splits [] [] 0 h (by rw [sumLen_nil]; rfl)
    (by positivity) (by simp) t htmem

lemma processSplits_bound (cs co : Nat) (noNew : Bool) (recurse : Str → List Str) :
    ∀ (splits good final : List Str),
      (∀ s ∈ splits, cs ≤ s.length →
        noNew = false ∧ ∀ t ∈ recurse s, t.length ≤ cs) →
      (∀ g ∈ good, g.length < cs) →
      (∀ t ∈ final, t.length ≤ cs) →
      ∀ t ∈ processSplits cs co noNew recurse splits good final,
        t.length ≤ cs := by
  intro splits
  induction splits with
  | nil =>
    intro good final _ hgood hfinal t htmem
    simp only [processSplits] at htmem
    rcases List.mem_append.mp htmem with h | h
    · exact hfinal t h
    · by_cases hg : good.isEmpty
      · simp [hg] at h
      · simp only [hg, if_neg, Bool.false_eq_true, not_false_iff] at h
        exact mergeSplits_bound cs co good hgood t h
  | cons s rest ih =>
    intro good final hsplits hgood hfinal t htmem
    have hs := hsplits s (by simp)
    have hrest : ∀ x ∈ rest, cs ≤ x.length →
        noNew = false ∧ ∀ u ∈ recurse x, u.length ≤ cs :=
      fun x hx => hsplits x (by simp [hx])
    simp only [processSplits] at htmem
    by_cases hlen : s.length < cs
    · rw [if_pos hlen] at htmem
      refine ih _ _ hrest ?_ hfinal t htmem
      intro g hg
      rcases List.mem_append.mp hg with h | h
      · exact hgood g h
      · have : g = s := by simpa using h
        subst this
        exact hlen
    · rw [if_neg hlen] at htmem
      obtain ⟨hnoNew, hrec⟩ := hs (le_of_not_lt hlen)
      subst hnoNew
      simp only [Bool.false_eq_true, if_neg, if_false] at htmem
      refine ih _ _ hrest (by simp) ?_ t htmem
      intro u hu
      rcases List.mem_append.mp hu with h | h
      · rcases List.mem_append.mp h with h2 | h2
        · exact hfinal u h2
        · by_cases hg : good.isEmpty
          · simp [hg] at h2
          · simp only [hg, if_neg, Bool.false_eq_true, not_false_iff] at h2
            exact mergeSplits_bound cs co good hgood u h2
      · exact hrec u h

lemma chooseSepGo_spec (text lastSep : Str) :
    ∀ seps : List Str, seps.getLast? = some [] →
      chooseSepGo text lastSep seps = ([], []) ∨
      ((chooseSepGo text lastSep seps).1 ≠ [] ∧
        (chooseSepGo text lastSep seps).2.getLast? = some [] ∧
        (chooseSepGo text lastSep seps).2.length < seps.length) := by
  intro seps
  induction seps with
  | nil => intro h; simp at h
  | cons s rest ih =>
    intro hlast
    by_cases hse : s.isEmpty
    · left
      simp [chooseSepGo, hse]
    · have hrest_ne : rest ≠ [] := by
        intro hr
        subst hr
        simp only [List.getLast?_singleton, Option.some.injEq] at hlast
        subst hlast
        simp at hse
      have hrest_last : rest.getLast? = some [] := by
        cases rest with
        | nil => exact absurd rfl hrest_ne
        | cons b t => rw [← List.getLast?_cons_cons (a := s)]; exact hlast
      by_cases hsub : isSubstr s text
      · right
        simp only [chooseSepGo, hse, Bool.false_eq_true, if_neg, hsub, if_pos,
          not_false_iff, if_true]
        refine ⟨by simpa using hse, hrest_last, by simp⟩
      · have heq : chooseSepGo text lastSep (s :: rest) =
            chooseSepGo text lastSep rest := by
          simp [chooseSepGo, hse, hsub]
        rw [heq]
        rcases ih hrest_last with h | h
        · exact Or.inl h
        · exact Or.inr ⟨h.1, h.2.1, lt_trans h.2.2 (by simp)⟩

lemma chooseSep_spec (text : Str) (seps : List Str)
    (hlast : seps.getLast? = some []) :
    chooseSep text seps = ([], []) ∨
    ((chooseSep text seps).1 ≠ [] ∧
      (chooseSep text seps).2.getLast? = some [] ∧
      (chooseSep text seps).2.length < seps.length) :=
  chooseSepGo_spec text (seps.getLastD []) seps hlast

lemma splitTextWithSep_nil_mem (text : Str) :
    ∀ t ∈ splitTextWithSep [] text, t.length = 1 := by
  intro t htmem
  simp only [splitTextWithSep, List.isEmpty_nil, if_pos, if_true] at htmem
  obtain ⟨ht, -⟩ := List.mem_filter.mp htmem
  obtain ⟨c, -, hc⟩ := List.mem_map.mp ht
  subst hc
  rfl

lemma splitTextFuel_bound (cs co : Nat) (hcs : 1 < cs) :
    ∀ (fuel : Nat) (seps : List Str) (text : Str),
      seps.getLast? = some [] → seps.length ≤ fuel →
      ∀ t ∈ splitTextFuel cs co fuel seps text, t.length ≤ cs := by
  intro fuel
  induction fuel with
  | zero =>
    intro seps text hlast hlen
    have : seps = [] := List.length_eq_zero.mp (Nat.le_zero.mp hlen)
    subst this
    simp at hlast
  | succ fuel ih =>
    intro seps text hlast hlen t htmem
    simp only [splitTextFuel] at htmem
    rcases chooseSep_spec text seps hlast with hcs0 | ⟨h1, h2, h3⟩
    · rw [hcs0] at htmem
      simp only [List.isEmpty_nil] at htmem
      refine processSplits_bound cs co true
        (fun s => splitTextFuel cs co fuel [] s) _ [] [] ?_ (by simp) (by simp)
        t htmem
      intro s hs hle
      have := splitTextWithSep_nil_mem text s hs
      omega
    · have hne : (chooseSep text seps).2 ≠ [] := by
        intro hh
        rw [hh] at h2
        simp at h2
      have hie : (chooseSep text seps).2.isEmpty = false := by
        cases hval : (chooseSep text seps).2 with
        | nil => exact absurd hval hne
        | cons b l => rfl
      rw [hie] at htmem
      refine processSplits_bound cs co false
        (fun s => splitTextFuel cs co fuel (chooseSep text seps).2 s) _ [] []
        ?_ (by simp) (by simp) t htmem
      intro s _ _
      refine ⟨rfl, ?_⟩
      intro u hu
      exact ih (chooseSep text seps).2 s h2 (by omega) u hu

/-- Every chunk `split_text` produces with a separator list ending in `""`
has length at most `chunk_size` (the `""` fallback splits into single
characters, which the merge step recombines without ever exceeding the
limit). -/
lemma splitText_bound (cs co : Nat) (seps : List Str) (text : Str)
    (hcs : 1 < cs) (hlast : seps.getLast? = some []) :
    ∀ t ∈ splitText cs co seps text, t.length ≤ cs := by
  intro t htmem
  exact splitTextFuel_bound cs co hcs seps.length seps text hlast le_rfl t htmem

/-!
Shape of `chunk_documents` output.
-/

lemma theSeparators_getLast : theSeparators.getLast? = some [] := rfl

lemma split_documents_mem (cs co : Nat) (seps : List Str)
    (docs : List Document) (x : Document)
    (h : x ∈ split_documents cs co seps docs) :
    ∃ d ∈ docs, x.metadata = d.metadata ∧
      x.page_content ∈ splitText cs co seps d.page_content := by
  simp only [split_documents] at h
  obtain ⟨d, hd, hx⟩ := List.mem_flatMap.mp h
  obtain ⟨s, hs, hxs⟩ := List.mem_map.mp hx
  subst hxs
  exact ⟨d, hd, rfl, hs⟩

lemma chunk_documents_rep (docs : List Document) (c : Document)
    (h : c ∈ chunk_documents docs) :
    ∃ (i : Nat) (hi : i < (split_documents 1000 100 theSeparators docs).length),
      c.page_content =
        ((split_documents 1000 100 theSeparators docs).get ⟨i, hi⟩).page_content ∧
      c.metadata =
        dictSet
          (dictSet ((split_documents 1000 100 theSeparators docs).get ⟨i, hi⟩).metadata
            ("chunk_id".toList) (.pyInt i))
          ("chunk_size".toList)
          (.pyInt ((split_documents 1000 100 theSeparators docs).get ⟨i, hi⟩).page_content.length) := by
  simp only [chunk_documents] at h
  obtain ⟨p, hp, hfc⟩ := List.mem_map.mp h
  obtain ⟨j, hj, hpe⟩ := List.mem_iff_getElem.mp hp
  rw [List.getElem_enum] at hpe
  rw [List.enum_length] at hj
  refine ⟨j, hj, ?_, ?_⟩
  · rw [← hfc, ← hpe]
    rfl
  · rw [← hfc, ← hpe]
    rfl

lemma split_documents_single (cs co : Nat) (seps : List Str) (doc : Document) :
    split_documents cs co seps [doc] =
      (splitText cs co seps doc.page_content).map
        (fun chunk => { page_content := chunk, metadata := doc.metadata }) := by
  simp [split_documents]

lemma chunk_documents_single_length (doc : Document) :
    (chunk_documents [doc]).length =
      (splitText 1000 100 theSeparators doc.page_content).length := by
  simp [chunk_documents, split_documents]

lemma chunk_documents_single_get (doc : Document) (i : Nat)
    (hi : i < (chunk_documents [doc]).length) :
    ∃ hs : i < (splitText 1000 100 theSeparators doc.page_content).length,
      (chunk_documents [doc]).get ⟨i, hi⟩ =
        { page_content :=
            (splitText 1000 100 theSeparators doc.page_content).get ⟨i, hs⟩,
          metadata :=
            dictSet (dictSet doc.metadata ("chunk_id".toList) (.pyInt i))
              ("chunk_size".toList)
              (.pyInt ((splitText 1000 100 theSeparators
                doc.page_content).get ⟨i, hs⟩).length) } := by
  have hs : i < (splitText 1000 100 theSeparators doc.page_content).length := by
    rw [← chunk_documents_single_length doc]
    exact hi
  refine ⟨hs, ?_⟩
  show (chunk_documents [doc])[i] = _
  simp only [chunk_documents, split_documents_single, List.getElem_map,
    List.getElem_enum, List.get_eq_getElem]

lemma records_prefix_applyOps : ∀ (ops : List Op) (st : IndexState),
    st.records <+: (applyOps ops st).records := by
  intro ops
  induction ops with
  | nil =>
    intro st
    simp only [applyOps, List.foldl_nil]
    exact List.prefix_rfl
  | cons o rest ih =>
    intro st
    have h1 : st.records <+: (applyOp o st).records := by
      cases o with
      | createIndex => exact List.prefix_rfl
      | addTexts ts ms => exact List.prefix_append _ _
      | s3Get b k => exact List.prefix_rfl
      | search q k => exact List.prefix_rfl
      | qaInvoke q => exact List.prefix_rfl
    have h2 : applyOps (o :: rest) st = applyOps rest (applyOp o st) := by
      simp [applyOps]
    rw [h2]
    exact h1.trans (ih (applyOp o st))

lemma search_similar_documents_ops (env : QEnv) (q : PyVal) (k : Nat) :
    (search_similar_documents env q k).2 = [] ∨
    (search_similar_documents env q k).2 = [Op.search q k] := by
  unfold search_similar_documents
  cases create_vector_store env.vectorStoreType env.pineconeApiKey with
  | error e => simp
  | ok sk =>
    cases env.search q k with
    | error e => simp
    | ok hits => simp

lemma query_lambda_handler_ops (env : QEnv) (event : PyVal) :
    (Query.lambda_handler env event).2 = (Query.handlerTry env event).2 := by
  rcases hh : Query.handlerTry env event with ⟨res, ops⟩
  cases res with
  | ok r => simp [Query.lambda_handler, hh]
  | error e => simp [Query.lambda_handler, hh]

lemma query_handlerTry_state (env : QEnv) (event : PyVal) (st : IndexState) :
    applyOps (Query.handlerTry env event).2 st = st := by
  unfold Query.handlerTry
  cases hpb : Query.parseBody env event with
  | error e => simp [applyOps]
  | ok body =>
    dsimp only
    cases hq : pyGet body ("query".toList) with
    | error e => simp [applyOps]
    | ok query =>
      dsimp only
      cases htr : pyTruthy query with
      | false => simp [applyOps]
      | true =>
        simp only [Bool.not_true, Bool.false_eq_true, if_false]
        cases hso : pyGetD body ("search_only".toList) (.pyBool false) with
        | error e => simp [applyOps]
        | ok so =>
          dsimp only
          cases hts : pyTruthy so with
          | true =>
            simp only [if_true]
            rcases hs : search_similar_documents env query 5 with ⟨res, ops2⟩
            have hops := search_similar_documents_ops env query 5
            rw [hs] at hops
            simp only at hops
            cases res with
            | error e =>
              dsimp only
              rcases hops with h | h
              · subst h; simp [applyOps]
              · subst h; simp [applyOps, applyOp]
            | ok docs =>
              dsimp only
              rcases hops with h | h
              · subst h; simp [applyOps]
              · subst h; simp [applyOps, applyOp]
          | false =>
            simp only [Bool.false_eq_true, if_false]
            cases hcv : create_vector_store env.vectorStoreType
                env.pineconeApiKey with
            | error e => simp [applyOps]
            | ok sk =>
              dsimp only
              cases hqa : env.qa query with
              | error e => simp [applyOps, applyOp]
              | ok r => simp [applyOps, applyOp]

lemma processRecord_s3_spec (env : IngEnv) (b rawKey : Str) (obj : S3Obj)
    (sk : StoreKind)
    (hs3 : env.s3get b (env.unquote rawKey) = .ok obj)
    (hcv : create_vector_store env.vectorStoreType env.pineconeApiKey = .ok sk) :
    ∃ r : Except PyErr Unit,
      processRecord env (s3Record b rawKey) =
        (r, [Op.s3Get b (env.unquote rawKey),
             Op.addTexts
               ((chunk_documents [loadedDocument b (env.unquote rawKey) obj]).map
                 (fun c => c.page_content))
               ((chunk_documents [loadedDocument b (env.unquote rawKey) obj]).map
                 (fun c => c.metadata))]) := by
  have hstep : processRecord env (s3Record b rawKey) =
      (match load_document_from_s3 env (.pyStr b) (env.unquote rawKey) with
       | (.error e, ops) => (.error e, ops)
       | (.ok documents, ops) =>
         let chunks := chunk_documents documents
         let p := store_chunks_in_vector_store env chunks
         (p.1, ops ++ p.2)) := rfl
  rw [hstep]
  have hload : load_document_from_s3 env (.pyStr b) (env.unquote rawKey) =
      (.ok [loadedDocument b (env.unquote rawKey) obj],
        [Op.s3Get b (env.unquote rawKey)]) := by
    unfold load_document_from_s3
    dsimp only
    rw [hs3]
  rw [hload]
  dsimp only
  unfold store_chunks_in_vector_store
  rw [hcv]
  dsimp only
  cases hadd : env.addTexts
      ((chunk_documents [loadedDocument b (env.unquote rawKey) obj]).map
        (fun c => c.page_content))
      ((chunk_documents [loadedDocument b (env.unquote rawKey) obj]).map
        (fun c => c.metadata)) with
  | ok u =>
    refine ⟨.ok (), ?_⟩
    simp
  | error e =>
    refine ⟨.error e, ?_⟩
    simp

/-- C6: backend selection in `create_vector_store` is a single name-based
branch on `VECTOR_STORE_TYPE`: `"opensearch"` returns the OpenSearch-backed
store, `"pinecone"` returns the Pinecone-backed store after raising
`ValueError` when `PINECONE_API_KEY` is unset, and every other value raises
`ValueError`. -/
theorem claim_C6_backend_selection (vst : Str) (key : Option Str) :
    (vst = "opensearch".toList →
      create_vector_store vst key = .ok .opensearch) ∧
    (vst = "pinecone".toList → key = none →
      create_vector_store vst key = .error (.valueError pineconeKeyMsg)) ∧
    (∀ k, vst = "pinecone".toList → key = some k → k ≠ [] →
      create_vector_store vst key = .ok .pinecone) ∧
    (vst ≠ "opensearch".toList → vst ≠ "pinecone".toList →
      create_vector_store vst key = .error (.valueError (unsupportedMsg vst))) := by
  refine ⟨?_, ?_, ?_, ?_⟩
  · intro h
    subst h
    rfl
  · intro h hk
    subst h
    subst hk
    rfl
  · intro k h hk hne
    subst h
    subst hk
    have hke : k.isEmpty = false := by
      cases k with
      | nil => exact absurd rfl hne
      | cons a t => rfl
    unfold create_vector_store
    rw [if_neg (by decide : ¬ ("pinecone".toList = "opensearch".toList)),
      if_pos rfl]
    dsimp only
    rw [hke]
    rfl
  · intro h1 h2
    unfold create_vector_store
    rw [if_neg h1, if_neg h2]

theorem claim_C6_backend_selection_witness :
    create_vector_store ("opensearch".toList) none = .ok .opensearch ∧
    create_vector_store ("pinecone".toList) none =
      .error (.valueError pineconeKeyMsg) ∧
    create_vector_store ("pinecone".toList) (some ("k".toList)) =
      .ok .pinecone ∧
    create_vector_store ("redis".toList) none =
      .error (.valueError (unsupportedMsg ("redis".toList))) :=
  ⟨(claim_C6_backend_selection ("opensearch".toList) none).1 rfl,
   (claim_C6_backend_selection ("pinecone".toList) none).2.1 rfl rfl,
   (claim_C6_backend_selection ("pinecone".toList)
     (some ("k".toList))).2.2.1 ("k".toList) rfl rfl (by decide),
   (claim_C6_backend_selection ("redis".toList) none).2.2.2
     (by decide) (by decide)⟩

/-- C7: no operation either handler performs updates or deletes existing
vector-index records — the ingestion trace only ever extends the record
list (its old records stay a prefix), and the query trace leaves the index
state entirely unchanged. -/
theorem claim_C7_no_update_delete (ienv : IngEnv) (qenv : QEnv)
    (ievent qevent : PyVal) (st : IndexState) :
    st.records <+:
      (applyOps (Ingestion.lambda_handler ienv ievent).2 st).records ∧
    applyOps (Query.lambda_handler qenv qevent).2 st = st :=
  ⟨records_prefix_applyOps (Ingestion.lambda_handler ienv ievent).2 st,
   by rw [query_lambda_handler_ops]
      exact query_handlerTry_state qenv qevent st⟩

/-- C3: whenever the body of either handler raises, the exception is caught
at the handler boundary and turned into the structured 500 response with
the handler's generic failure message; the handlers are total and never
propagate the exception. -/
theorem claim_C3_catch_all (qenv : QEnv) (ienv : IngEnv)
    (qevent ievent : PyVal) (e e' : PyErr) :
    ((Query.handlerTry qenv qevent).1 = .error e →
      (Query.lambda_handler qenv qevent).1 = Query.resp500 e) ∧
    ((Ingestion.handlerTry ienv ievent).1 = .error e' →
      (Ingestion.lambda_handler ienv ievent).1 = Ingestion.resp500 e') := by
  constructor
  · intro h
    rcases hh : Query.handlerTry qenv qevent with ⟨res, ops⟩
    rw [hh] at h
    cases res with
    | ok r => simp at h
    | error e0 =>
      have he : e0 = e := by simpa using h
      subst he
      simp [Query.lambda_handler, hh]
  · intro h
    rcases hh : Ingestion.handlerTry ienv ievent with ⟨res, ops⟩
    rw [hh] at h
    cases res with
    | ok r => simp at h
    | error e0 =>
      have he : e0 = e' := by simpa using h
      subst he
      simp [Ingestion.lambda_handler, hh]

theorem claim_C3_catch_all_witness :
    (Query.lambda_handler testQEnv PyVal.pyNone).1 =
      Query.resp500 (.attributeError ("object has no attribute get".toList)) ∧
    (Ingestion.lambda_handler testIngEnv PyVal.pyNone).1 =
      Ingestion.resp500
        (.attributeError ("object has no attribute get".toList)) :=
  ⟨(claim_C3_catch_all testQEnv testIngEnv PyVal.pyNone PyVal.pyNone
      (.attributeError ("object has no attribute get".toList))
      (.attributeError ("object has no attribute get".toList))).1 rfl,
   (claim_C3_catch_all testQEnv testIngEnv PyVal.pyNone PyVal.pyNone
      (.attributeError ("object has no attribute get".toList))
      (.attributeError ("object has no attribute get".toList))).2 rfl⟩

/-- C8: every chunk `chunk_documents` produces is a bounded-size piece of
a source document: its recorded `chunk_size` metadata equals the length of
its text, and that length never exceeds the configured chunk size 1000. -/
theorem claim_C8_chunk_bound (docs : List Document) (c : Document)
    (h : c ∈ chunk_documents docs) :
    dictLookup c.metadata ("chunk_size".toList) =
      some (.pyInt c.page_content.length) ∧
    c.page_content.length ≤ 1000 := by
  obtain ⟨i, hi, hpc, hmd⟩ := chunk_documents_rep docs c h
  constructor
  · rw [hmd, dictLookup_dictSet_self, hpc]
  · obtain ⟨d, hd, hmeta, hsp⟩ :=
      split_documents_mem 1000 100 theSeparators docs _ (List.get_mem _ _ _)
    rw [hpc]
    exact splitText_bound 1000 100 theSeparators d.page_content (by norm_num)
      theSeparators_getLast _ hsp

theorem claim_C8_chunk_bound_witness :
    dictLookup testChunk.metadata ("chunk_size".toList) =
      some (.pyInt testChunk.page_content.length) ∧
    testChunk.page_content.length ≤ 1000 :=
  claim_C8_chunk_bound [testDoc] testChunk
    (by have h : chunk_documents [testDoc] = [testChunk] := rfl
        rw [h]
        exact List.mem_singleton.mpr rfl)

/-- C9: a request whose (successfully parsed) body lacks a `query` key or
carries a falsy `query` value gets the 400 response
`{"error": "Query parameter is required"}`, and no external operation —
in particular no similarity search and no LLM call — is performed. -/
theorem claim_C9_missing_query (env : QEnv) (event : PyVal)
    (bd : List (Str × PyVal))
    (hpb : Query.parseBody env event = .ok (.pyDict bd))
    (hq : dictLookup bd ("query".toList) = none ∨
      ∃ v, dictLookup bd ("query".toList) = some v ∧ pyTruthy v = false) :
    Query.lambda_handler env event = (Query.resp400, []) := by
  have hqv : pyTruthy ((dictLookup bd ("query".toList)).getD .pyNone) = false := by
    rcases hq with h | ⟨v, hv, htr⟩
    · rw [h]
      rfl
    · rw [hv]
      exact htr
  unfold Query.lambda_handler Query.handlerTry
  rw [hpb]
  dsimp only
  simp only [pyGet, pyGetD]
  rw [hqv]
  rfl

theorem claim_C9_missing_query_witness :
    Query.lambda_handler testQEnv evNoQuery = (Query.resp400, []) :=
  claim_C9_missing_query testQEnv evNoQuery [] rfl (Or.inl rfl)

/-- C1: a request whose body carries a non-empty `query` string and
`search_only = true` gets the 200 response whose body's `type` field is
`"similarity_search"` and whose `documents` list holds the raw
similarity-search results — and the operation trace contains only the
similarity search, no LLM invocation. -/
theorem claim_C1_search_only (env : QEnv) (event : PyVal)
    (bd : List (Str × PyVal)) (q : Str) (hits : List (Document × Int))
    (sk : StoreKind)
    (hpb : Query.parseBody env event = .ok (.pyDict bd))
    (hq : dictLookup bd ("query".toList) = some (.pyStr q))
    (hne : q ≠ [])
    (hso : dictLookup bd ("search_only".toList) = some (.pyBool true))
    (hcv : create_vector_store env.vectorStoreType env.pineconeApiKey = .ok sk)
    (hse : env.search (.pyStr q) 5 = .ok hits) :
    Query.lambda_handler env event =
      (Query.resp200 (.pyDict
        [("query".toList, .pyStr q),
         ("documents".toList, .pyList (hits.map fun h =>
           .pyDict
             [("content".toList, .pyStr h.1.page_content),
              ("score".toList, .pyFloat h.2),
              ("metadata".toList, .pyDict h.1.metadata)])),
         ("type".toList, .pyStr ("similarity_search".toList))]),
       [Op.search (.pyStr q) 5]) := by
  have hqe : q.isEmpty = false := by
    cases q with
    | nil => exact absurd rfl hne
    | cons a t => rfl
  unfold Query.lambda_handler Query.handlerTry
  rw [hpb]
  dsimp only
  simp only [pyGet, pyGetD]
  rw [hq]
  dsimp only [Option.getD]
  simp only [pyTruthy, hqe, Bool.not_false, Bool.false_eq_true, if_false,
    if_true]
  rw [hso]
  dsimp only [Option.getD]
  simp only [pyTruthy, if_true]
  unfold search_similar_documents
  rw [hcv]
  dsimp only
  rw [hse]
  rfl

theorem claim_C1_search_only_witness :
    Query.lambda_handler testQEnv evSearchOnly =
      (Query.resp200 (.pyDict
        [("query".toList, .pyStr ("hi".toList)),
         ("documents".toList, .pyList
           [.pyDict
             [("content".toList, .pyStr ("doc".toList)),
              ("score".toList, .pyFloat 7),
              ("metadata".toList, .pyDict [])]]),
         ("type".toList, .pyStr ("similarity_search".toList))]),
       [Op.search (.pyStr ("hi".toList)) 5]) :=
  claim_C1_search_only testQEnv evSearchOnly
    [("query".toList, .pyStr ("hi".toList)),
     ("search_only".toList, .pyBool true)]
    ("hi".toList)
    [({ page_content := "doc".toList, metadata := [] }, 7)]
    .opensearch rfl rfl (by decide) rfl rfl rfl

/-- C5: a request with a non-empty `query` string whose handling completes
without exception gets a 200 response whose body is exactly one of two
shapes: `query`/`documents`/`type` (raw similarity results) when
`search_only` is truthy, and `query`/`response`/`sources` (synthesized
answer with cited sources) when `search_only` is false or absent. -/
theorem claim_C5_two_shapes (env : QEnv) (event : PyVal)
    (bd : List (Str × PyVal)) (q : Str) (resp : PyVal) (ops : List Op)
    (hpb : Query.parseBody env event = .ok (.pyDict bd))
    (hq : dictLookup bd ("query".toList) = some (.pyStr q))
    (hne : q ≠ [])
    (hok : Query.handlerTry env event = (.ok resp, ops)) :
    respStatusCode resp = some (.pyInt 200) ∧
    (pyTruthy ((dictLookup bd ("search_only".toList)).getD (.pyBool false)) =
        true →
      respBodyKeys resp =
        some ["query".toList, "documents".toList, "type".toList]) ∧
    (pyTruthy ((dictLookup bd ("search_only".toList)).getD (.pyBool false)) =
        false →
      respBodyKeys resp =
        some ["query".toList, "response".toList, "sources".toList]) := by
  have hqe : q.isEmpty = false := by
    cases q with
    | nil => exact absurd rfl hne
    | cons a t => rfl
  have hptr : pyTruthy (.pyStr q) = true := by
    simp [pyTruthy, hqe]
  unfold Query.handlerTry at hok
  rw [hpb] at hok
  dsimp only at hok
  simp only [pyGet, pyGetD] at hok
  rw [hq] at hok
  simp only [Option.getD_some, hptr, Bool.not_true, Bool.false_eq_true,
    if_false] at hok
  by_cases hts : pyTruthy
      ((dictLookup bd ("search_only".toList)).getD (.pyBool false)) = true
  · rw [if_pos hts] at hok
    rcases hs : search_similar_documents env (.pyStr q) 5 with ⟨res2, ops2⟩
    rw [hs] at hok
    cases res2 with
    | error e =>
      dsimp only at hok
      simp at hok
    | ok docs =>
      dsimp only at hok
      have hr : Query.resp200 (.pyDict
          [("query".toList, .pyStr q),
           ("documents".toList, .pyList docs),
           ("type".toList, .pyStr ("similarity_search".toList))]) = resp := by
        have h1 := congrArg Prod.fst hok
        simpa using h1
      refine ⟨?_, ?_, ?_⟩
      · rw [← hr]
        rfl
      · intro _
        rw [← hr]
        rfl
      · intro hf
        rw [hts] at hf
        simp at hf
  · have hts2 : pyTruthy
        ((dictLookup bd ("search_only".toList)).getD (.pyBool false)) = false :=
      Bool.not_eq_true _ ▸ eq_false_of_ne_true hts
    rw [if_neg hts] at hok
    cases hcv : create_vector_store env.vectorStoreType env.pineconeApiKey with
    | error e =>
      rw [hcv] at hok
      dsimp only at hok
      simp at hok
    | ok sk =>
      rw [hcv] at hok
      dsimp only at hok
      cases hqa : env.qa (.pyStr q) with
      | error e =>
        rw [hqa] at hok
        dsimp only at hok
        simp at hok
      | ok r =>
        rw [hqa] at hok
        dsimp only at hok
        have hr : Query.resp200 (.pyDict
            [("query".toList, .pyStr q),
             ("response".toList, .pyStr r.result),
             ("sources".toList,
               .pyList (r.source_documents.map sourceInfo))]) = resp := by
          have h1 := congrArg Prod.fst hok
          simpa using h1
        refine ⟨?_, ?_, ?_⟩
        · rw [← hr]
          rfl
        · intro hf
          rw [hts2] at hf
          simp at hf
        · intro _
          rw [← hr]
          rfl

theorem claim_C5_two_shapes_witness :
    respStatusCode (Query.resp200 (.pyDict
      [("query".toList, .pyStr ("hi".toList)),
       ("response".toList, .pyStr ("ans".toList)),
       ("sources".toList, .pyList [])])) = some (.pyInt 200) ∧
    respBodyKeys (Query.resp200 (.pyDict
      [("query".toList, .pyStr ("hi".toList)),
       ("response".toList, .pyStr ("ans".toList)),
       ("sources".toList, .pyList [])])) =
      some ["query".toList, "response".toList, "sources".toList] := by
  have h := claim_C5_two_shapes testQEnv evRag
    [("query".toList, .pyStr ("hi".toList))] ("hi".toList)
    (Query.resp200 (.pyDict
      [("query".toList, .pyStr ("hi".toList)),
       ("response".toList, .pyStr ("ans".toList)),
       ("sources".toList, .pyList [])]))
    [Op.qaInvoke (.pyStr ("hi".toList))]
    rfl rfl (by decide) rfl
  exact ⟨h.1, h.2.2 rfl⟩

/-- C10: an ingestion invocation that completes without exception returns
status 200 with `processed_records` equal to the total number of entries
of the event's `Records` list — and a record whose `eventSource` is not
`'aws:s3'` is skipped without any external operation, yet still counted. -/
theorem claim_C10_processed_records (env : IngEnv) (event : PyVal)
    (recs : List PyVal) (ops : List Op)
    (h : Ingestion.handlerTry env event = (.ok recs, ops)) :
    (Ingestion.lambda_handler env event).1 = Ingestion.resp200 recs.length ∧
    pyGetD event ("Records".toList) (.pyList []) = .ok (.pyList recs) ∧
    (∀ d : List (Str × PyVal),
      pyEqStr ((dictLookup d ("eventSource".toList)).getD .pyNone)
        ("aws:s3".toList) = false →
      processRecord env (.pyDict d) = (.ok (), [])) := by
  refine ⟨?_, ?_, ?_⟩
  · simp [Ingestion.lambda_handler, h]
  · unfold Ingestion.handlerTry at h
    rcases hci : create_index_if_not_exists env with ⟨cres, cops⟩
    rw [hci] at h
    cases cres with
    | error e =>
      dsimp only at h
      simp at h
    | ok u =>
      dsimp only at h
      cases hg : pyGetD event ("Records".toList) (.pyList []) with
      | error e =>
        rw [hg] at h
        dsimp only at h
        simp at h
      | ok recsV =>
        rw [hg] at h
        dsimp only at h
        cases recsV with
        | pyStr s => dsimp only at h; simp at h
        | pyInt n => dsimp only at h; simp at h
        | pyFloat c => dsimp only at h; simp at h
        | pyBool b => dsimp only at h; simp at h
        | pyNone => dsimp only at h; simp at h
        | pyDict d2 => dsimp only at h; simp at h
        | pyList recs2 =>
          dsimp only at h
          rcases hpr : processRecords env recs2 with ⟨pres, pops⟩
          rw [hpr] at h
          cases pres with
          | error e =>
            dsimp only at h
            simp at h
          | ok u2 =>
            dsimp only at h
            simp only [Prod.mk.injEq, Except.ok.injEq] at h
            rw [h.1]
  · intro d hd
    have hd2 : pyEqStr
        ((dictLookup d ['e', 'v', 'e', 'n', 't', 'S', 'o', 'u', 'r', 'c', 'e']).getD
          PyVal.pyNone)
        ['a', 'w', 's', ':', 's', '3'] = false := hd
    unfold processRecord
    simp only [pyGet, pyGetD]
    simp [hd2]

theorem claim_C10_processed_records_witness :
    (Ingestion.lambda_handler testIngEnv evSqsOnly).1 =
      Ingestion.resp200 1 :=
  (claim_C10_processed_records testIngEnv evSqsOnly [sqsRecord] [] rfl).1

/-- C2: processing an ingestion record for S3 object `X` hands `add_texts`
exactly one text per chunk of `X`'s content: the texts list is the chunk
list of the loaded document, and its length equals the number of chunks
`split_text` produces from the object's content. -/
theorem claim_C2_one_record_per_chunk (env : IngEnv) (b rawKey : Str)
    (obj : S3Obj) (sk : StoreKind)
    (hs3 : env.s3get b (env.unquote rawKey) = .ok obj)
    (hcv : create_vector_store env.vectorStoreType env.pineconeApiKey = .ok sk) :
    (processRecord env (s3Record b rawKey)).2 =
      [Op.s3Get b (env.unquote rawKey),
       Op.addTexts
         ((chunk_documents [loadedDocument b (env.unquote rawKey) obj]).map
           (fun c => c.page_content))
         ((chunk_documents [loadedDocument b (env.unquote rawKey) obj]).map
           (fun c => c.metadata))] ∧
    ((chunk_documents [loadedDocument b (env.unquote rawKey) obj]).map
        (fun c => c.page_content)).length =
      (splitText 1000 100 theSeparators obj.body).length := by
  obtain ⟨r, hr⟩ := processRecord_s3_spec env b rawKey obj sk hs3 hcv
  constructor
  · rw [hr]
  · rw [List.length_map]
    exact chunk_documents_single_length
      (loadedDocument b (env.unquote rawKey) obj)

theorem claim_C2_one_record_per_chunk_witness :
    (processRecord testIngEnv (s3Record ("b".toList) ("k.txt".toList))).2 =
      [Op.s3Get ("b".toList) (testIngEnv.unquote ("k.txt".toList)),
       Op.addTexts
         ((chunk_documents [loadedDocument ("b".toList)
             (testIngEnv.unquote ("k.txt".toList)) testObj]).map
           (fun c => c.page_content))
         ((chunk_documents [loadedDocument ("b".toList)
             (testIngEnv.unquote ("k.txt".toList)) testObj]).map
           (fun c => c.metadata))] ∧
    ((chunk_documents [loadedDocument ("b".toList)
        (testIngEnv.unquote ("k.txt".toList)) testObj]).map
      (fun c => c.page_content)).length =
      (splitText 1000 100 theSeparators testObj.body).length :=
  claim_C2_one_record_per_chunk testIngEnv ("b".toList) ("k.txt".toList)
    testObj .opensearch rfl rfl

/-- C4: every record handed to the vector index carries metadata with the
`s3://bucket/key` origin under `source`, its 0-based position in the split
output under `chunk_id`, and the length of its text under `chunk_size`. -/
theorem claim_C4_record_metadata (env : IngEnv) (b rawKey : Str)
    (obj : S3Obj) (sk : StoreKind)
    (texts : List Str) (metas : List (List (Str × PyVal)))
    (hs3 : env.s3get b (env.unquote rawKey) = .ok obj)
    (hcv : create_vector_store env.vectorStoreType env.pineconeApiKey = .ok sk)
    (htexts : texts =
      (chunk_documents [loadedDocument b (env.unquote rawKey) obj]).map
        (fun c => c.page_content))
    (hmetas : metas =
      (chunk_documents [loadedDocument b (env.unquote rawKey) obj]).map
        (fun c => c.metadata)) :
    (processRecord env (s3Record b rawKey)).2 =
      [Op.s3Get b (env.unquote rawKey), Op.addTexts texts metas] ∧
    ∀ (i : Nat) (hi : i < metas.length) (hit : i < texts.length),
      dictLookup (metas.get ⟨i, hi⟩) ("source".toList) =
        some (.pyStr ("s3://".toList ++ b ++ "/".toList ++
          env.unquote rawKey)) ∧
      dictLookup (metas.get ⟨i, hi⟩) ("chunk_id".toList) = some (.pyInt i) ∧
      dictLookup (metas.get ⟨i, hi⟩) ("chunk_size".toList) =
        some (.pyInt (texts.get ⟨i, hit⟩).length) := by
  subst htexts
  subst hmetas
  obtain ⟨r, hr⟩ := processRecord_s3_spec env b rawKey obj sk hs3 hcv
  refine ⟨by rw [hr], ?_⟩
  intro i hi hit
  have hi2 : i <
      (chunk_documents [loadedDocument b (env.unquote rawKey) obj]).length := by
    simpa using hi
  have hget_m : ((chunk_documents
        [loadedDocument b (env.unquote rawKey) obj]).map
        (fun c => c.metadata)).get ⟨i, hi⟩ =
      ((chunk_documents [loadedDocument b (env.unquote rawKey) obj]).get
        ⟨i, hi2⟩).metadata := by
    simp [List.get_eq_getElem, List.getElem_map]
  have hget_t : ((chunk_documents
        [loadedDocument b (env.unquote rawKey) obj]).map
        (fun c => c.page_content)).get ⟨i, hit⟩ =
      ((chunk_documents [loadedDocument b (env.unquote rawKey) obj]).get
        ⟨i, hi2⟩).page_content := by
    simp [List.get_eq_getElem, List.getElem_map]
  obtain ⟨hs, hrep⟩ :=
    chunk_documents_single_get (loadedDocument b (env.unquote rawKey) obj) i hi2
  rw [hget_m, hget_t, hrep]
  dsimp only
  refine ⟨?_, ?_, ?_⟩
  · rw [dictLookup_dictSet_ne _ _ _
        (by decide : ("source".toList : Str) ≠ "chunk_size".toList),
      dictLookup_dictSet_ne _ _ _
        (by decide : ("source".toList : Str) ≠ "chunk_id".toList)]
    rfl
  · rw [dictLookup_dictSet_ne _ _ _
        (by decide : ("chunk_id".toList : Str) ≠ "chunk_size".toList),
      dictLookup_dictSet_self]
  · rw [dictLookup_dictSet_self]

theorem claim_C4_record_metadata_witness :
    (processRecord testIngEnv (s3Record ("b".toList) ("k.txt".toList))).2 =
      [Op.s3Get ("b".toList) (testIngEnv.unquote ("k.txt".toList)),
       Op.addTexts ["hello world".toList] [testMeta]] ∧
    dictLookup (([testMeta] : List (List (Str × PyVal))).get
        ⟨0, by decide⟩) ("source".toList) =
      some (.pyStr ("s3://".toList ++ "b".toList ++ "/".toList ++
        testIngEnv.unquote ("k.txt".toList))) ∧
    dictLookup (([testMeta] : List (List (Str × PyVal))).get
        ⟨0, by decide⟩) ("chunk_id".toList) = some (.pyInt 0) ∧
    dictLookup (([testMeta] : List (List (Str × PyVal))).get
        ⟨0, by decide⟩) ("chunk_size".toList) =
      some (.pyInt ((["hello world".toList] : List Str).get
        ⟨0, by decide⟩).length) := by
  have h := claim_C4_record_metadata testIngEnv ("b".toList) ("k.txt".toList)
    testObj .opensearch ["hello world".toList] [testMeta] rfl rfl rfl rfl
  exact ⟨h.1, (h.2 0 (by decide) (by decide)).1,
    (h.2 0 (by decide) (by decide)).2.1,
    (h.2 0 (by decide) (by decide)).2.2⟩
